import Mathlib

/-!
# Badge credential issuers: a shallow embedding

This file embeds `credentials/apps/badges/issuers.py` in Lean 4.

The module under study is a thin orchestration layer: it upserts a local
"user credential" record keyed by `(username, credential content type,
credential id)`, emits notifications, calls an external badge provider
(Credly or Accredible), and reconciles the provider response back into the
local record.

The persistence layer (Django ORM), the provider API clients, the user
lookup and the notification bus are external collaborators; they are
modelled explicitly: the store as a list of records, the provider and user
lookup as components of an `Env`, and notifications as an emitted list.
Provider calls that raise `BadgeProviderError` are modelled by the provider
function of the environment returning `none`.
-/

set_option autoImplicit false

namespace Badges

/-- The user-credential model classes: `UserCredential` (base), `CredlyBadge`,
`AccredibleBadge`. -/
inductive CredType
  | userCredential
  | credlyBadge
  | accredibleBadge
deriving DecidableEq, Repr

/-- The credential-definition model classes: `BadgeTemplate` (base),
`CredlyBadgeTemplate`, `AccredibleGroup`. -/
inductive DefType
  | badgeTemplate
  | credlyBadgeTemplate
  | accredibleGroup
deriving DecidableEq, Repr

/-- The three issuer classes of `issuers.py`: `BadgeTemplateIssuer`,
`CredlyBadgeTemplateIssuer`, `AccredibleBadgeTemplateIssuer`. -/
inductive IssuerKind
  | base
  | credly
  | accredible
deriving DecidableEq, Repr

/-- `issued_user_credential_type` of each issuer class. -/
def IssuerKind.userCredType : IssuerKind → CredType
  | .base => .userCredential
  | .credly => .credlyBadge
  | .accredible => .accredibleBadge

/-- `issued_credential_type` of each issuer class. -/
def IssuerKind.defType : IssuerKind → DefType
  | .base => .badgeTemplate
  | .credly => .credlyBadgeTemplate
  | .accredible => .accredibleGroup

/-- Modelled from the spec: `UserCredentialStatus.AWARDED` — the status
constants live in `credentials/apps/credentials/constants.py`, which is not
part of this repository slice; the spec names the two statuses
AWARDED/REVOKED. -/
def STATUS_AWARDED : String := "awarded"

/-- Modelled from the spec: `UserCredentialStatus.REVOKED`. -/
def STATUS_REVOKED : String := "revoked"

/-- Modelled from the spec: `CredlyBadge.STATES.revoked`, the terminal
revoked lifecycle state of a Credly badge (models are not in this slice;
the spec calls `state` a free-form string such as "revoked"). -/
def CREDLY_STATE_REVOKED : String := "revoked"

/-- Modelled from the spec: `AccredibleBadge.STATES.expired`, the terminal
expired lifecycle state of an Accredible badge. -/
def ACCREDIBLE_STATE_EXPIRED : String := "expired"

/-- Modelled from the spec: `AccredibleBadge.STATES.accepted`, the fixed
"accepted" value forced on successful Accredible issuance. -/
def ACCREDIBLE_STATE_ACCEPTED : String := "accepted"

/-- Modelled from the spec: the lifecycle state a freshly created record
carries before any provider round-trip; the spec says external fields
(`state` among them) are mutated only after a provider round-trip, so the
creation default is a non-terminal marker. -/
def STATE_CREATED : String := "created"

/-- `REVOCATION_STATES` of `issuers.py`: a dict from user-credential class
to its terminal revocation/expiry state; `.get` on a missing key
(`UserCredential`) yields `None`, modelled by `Option`. -/
def REVOCATION_STATES : CredType → Option String
  | .credlyBadge => some CREDLY_STATE_REVOKED
  | .accredibleBadge => some ACCREDIBLE_STATE_EXPIRED
  | .userCredential => none

/-- A credential definition (`BadgeTemplate` / `CredlyBadgeTemplate` /
`AccredibleGroup`): id, uuid, organization uuid, display name, creation
time (kept as its already-formatted `%Y-%m-%d %H:%M:%S %z` string), and the
Accredible `api_config` id. -/
structure BadgeDef where
  id : Nat
  uuid : String
  orgUuid : String
  name : String
  createdFmt : String
  apiConfigId : Nat
deriving DecidableEq, Repr

/-- A user credential record (`UserCredential` / `CredlyBadge` /
`AccredibleBadge` row): primary key, model class, the composite natural key
`(username, credential content type, credential id)`, local `status`,
provider `state`, external identifiers, creation time (formatted string),
and the attribute/date-override fields. -/
structure UserCred where
  pk : Nat
  ctype : CredType
  username : String
  credentialContentType : DefType
  credentialId : Nat
  status : String
  state : String
  externalUuid : Option String
  externalId : Option Nat
  createdFmt : String
  attributes : Option (List (String × String))
  dateOverride : Option String
deriving DecidableEq, Repr

/-- Modelled from the spec: the `propagated` property of the user-credential
models (not in this slice) — "whether the external provider has successfully
recorded at least one issuance for this User Credential"; a successful
external issuance is exactly what stores the provider-assigned external
identifier. The base `UserCredential` has no external issuance. -/
def UserCred.propagated (r : UserCred) : Bool :=
  match r.ctype with
  | .credlyBadge => r.externalUuid.isSome
  | .accredibleBadge => r.externalId.isSome
  | .userCredential => false

/-- The store: the user-credential tables, as a list of rows. -/
abbrev Store := List UserCred

/-- Whether a row belongs to the issuer's user-credential table and matches
the composite key `(username, credential content type, credential id)` used
by `get_or_create`. -/
def credKeyMatches (k : IssuerKind) (username : String) (cid : Nat)
    (r : UserCred) : Bool :=
  r.ctype == k.userCredType && r.username == username &&
    r.credentialContentType == k.defType && r.credentialId == cid

/-- Key lookup in the store (the "get" half of `get_or_create`). -/
def findCred (store : Store) (k : IssuerKind) (username : String)
    (cid : Nat) : Option UserCred :=
  store.find? (credKeyMatches k username cid)

/-- A primary key unused by every row of the store. -/
def freshPk (store : Store) : Nat :=
  store.foldr (fun r acc => max (r.pk + 1) acc) 0

/-- `user_credential.save()`: persist a (mutated) row by primary key. -/
def saveCred (store : Store) (r : UserCred) : Store :=
  store.map (fun x => if x.pk = r.pk then r else x)

/-- Count of rows matching the issuer's composite key. -/
def countKey (store : Store) (k : IssuerKind) (username : String)
    (cid : Nat) : Nat :=
  (store.filter (credKeyMatches k username cid)).length

/-- A user profile, as returned by the `get_user_by_username` collaborator:
`email`, `first_name`, `last_name`, `username`, and `get_full_name()`. -/
structure UserData where
  email : String
  first_name : String
  last_name : String
  username : String
  full_name : String
deriving DecidableEq, Repr

/-- `CredlyBadgeData`: the provider payload built by `issue_credly_badge`. -/
structure CredlyBadgeData where
  recipient_email : String
  issued_to_first_name : String
  issued_to_last_name : String
  badge_template_id : String
  issued_at : String
deriving DecidableEq, Repr

/-- A successful Credly API response, exposing `data.id` and `data.state`. -/
structure CredlyIssueResp where
  id : String
  state : String
deriving DecidableEq, Repr

/-- `AccredibleRecipient` of the Accredible payload. -/
structure AccredibleRecipient where
  name : String
  email : String
deriving DecidableEq, Repr

/-- `AccredibleCredential` of the Accredible payload. -/
structure AccredibleCredential where
  recipient : AccredibleRecipient
  group_id : Nat
  name : String
  issued_on : String
  complete : Bool
deriving DecidableEq, Repr

/-- `AccredibleBadgeData`: the Accredible issue payload. -/
structure AccredibleBadgeData where
  credential : AccredibleCredential
deriving DecidableEq, Repr

/-- `AccredibleExpiredCredential` of the Accredible expire payload. -/
structure AccredibleExpiredCredential where
  expired_on : String
deriving DecidableEq, Repr

/-- `AccredibleExpireBadgeData`: the Accredible revoke (expire) payload. -/
structure AccredibleExpireBadgeData where
  credential : AccredibleExpiredCredential
deriving DecidableEq, Repr

/-- The fixed human-readable Credly revoke reason string. -/
def CREDLY_REVOKE_REASON : String :=
  "Open edX internal user credential was revoked"

/-- The external world: the credential-definition tables, the user lookup,
the wall clock (as an already-formatted timestamp), and the provider API
clients. Each provider call takes the client's scope (organization uuid or
api-config id) and the payload; returning `none` (or `false` for the
Accredible revoke, whose response body is ignored) models the call raising
`BadgeProviderError`. -/
structure Env where
  defs : DefType → Nat → Option BadgeDef
  users : String → UserData
  nowFmt : String
  credlyIssue : String → CredlyBadgeData → Option CredlyIssueResp
  credlyRevoke : String → Option String → String → Option String
  accredibleIssue : Nat → AccredibleBadgeData → Option Nat
  accredibleRevoke : Nat → Option Nat → AccredibleExpireBadgeData → Bool

/-- A notification emitted on the bus: `notify_badge_awarded` /
`notify_badge_revoked`, carrying the record as it was when emitted. -/
inductive Notif
  | awarded (r : UserCred)
  | revoked (r : UserCred)
deriving DecidableEq, Repr

/-- The observable effects of one `award`/`revoke` call: the resulting
store, the notifications emitted, and how many external provider issue and
revoke calls were made. -/
structure Effects where
  store : Store
  notifs : List Notif
  issueCalls : Nat
  revokeCalls : Nat
deriving DecidableEq, Repr

/-- The outcome of one `award`/`revoke` call: normal return with the
record, a definition-lookup failure (`DoesNotExist`), or a propagated
`BadgeProviderError`. Failures still carry the effects that happened before
the raise (the store persists across a raise). -/
inductive Outcome
  | ok (eff : Effects) (rec : UserCred)
  | notFound (eff : Effects)
  | providerError (eff : Effects)
deriving DecidableEq, Repr

/-- The store an outcome leaves behind. -/
def Outcome.store : Outcome → Store
  | .ok eff _ => eff.store
  | .notFound eff => eff.store
  | .providerError eff => eff.store

/-- The notifications an outcome emitted. -/
def Outcome.notifs : Outcome → List Notif
  | .ok eff _ => eff.notifs
  | .notFound eff => eff.notifs
  | .providerError eff => eff.notifs

/-- The number of external provider issue calls an outcome made. -/
def Outcome.issueCalls : Outcome → Nat
  | .ok eff _ => eff.issueCalls
  | .notFound eff => eff.issueCalls
  | .providerError eff => eff.issueCalls

/-- The number of external provider revoke calls an outcome made. -/
def Outcome.revokeCalls : Outcome → Nat
  | .ok eff _ => eff.revokeCalls
  | .notFound eff => eff.revokeCalls
  | .providerError eff => eff.revokeCalls

/-- The result of a provider-specific external step
(`issue_credly_badge` and friends), acting on the store and the record:
success, a raised `BadgeProviderError` (after persisting `state = "error"`),
or a definition-lookup failure before the provider call. -/
inductive ExtResult
  | ok (store : Store) (rec : UserCred)
  | fail (store : Store) (rec : UserCred)
  | missing
deriving DecidableEq, Repr

/-- `BadgeTemplateIssuer.get_credential`: fetch the definition by id from
the issuer's `issued_credential_type` table. -/
def get_credential (k : IssuerKind) (env : Env) (cid : Nat) :
    Option BadgeDef :=
  env.defs k.defType cid

/-- The row `get_or_create` builds on a miss: the composite key fields, the
given status as the creation default, and the model defaults for the
remaining fields. -/
def newRec (k : IssuerKind) (env : Env) (store : Store) (username : String)
    (cid : Nat) (defaultStatus : String) : UserCred :=
  { pk := freshPk store
    ctype := k.userCredType
    username := username
    credentialContentType := k.defType
    credentialId := cid
    status := defaultStatus
    state := STATE_CREATED
    externalUuid := none
    externalId := none
    createdFmt := env.nowFmt
    attributes := none
    dateOverride := none }

/-- The `get_or_create` step of `issue_credential`: look the row up by the
composite key; on a miss create it with the given status as the creation
default. Returns the store, the row, and the created flag. -/
def getOrCreate (k : IssuerKind) (env : Env) (store : Store)
    (username : String) (cid : Nat) (defaultStatus : String) :
    Store × UserCred × Bool :=
  match findCred store k username cid with
  | some r => (store, r, false)
  | none =>
    let r := newRec k env store username cid defaultStatus
    (store ++ [r], r, true)

/-- The revocation guard of `issue_credential`:
`user_credential.state == REVOCATION_STATES.get(self.issued_user_credential_type)`.
Python's `== None` on a string is `False`, so a missing dict entry makes the
comparison fail. -/
def stateEqualsRevocation (k : IssuerKind) (r : UserCred) : Bool :=
  match REVOCATION_STATES k.userCredType with
  | some s => r.state == s
  | none => false

/-- Modelled from the spec: `set_credential_attributes` of
`AbstractCredentialIssuer` (not in this slice) — "applies any attribute
overrides to the record (delegated setters — simple field assignment)";
`None` means no override. -/
def set_credential_attributes (store : Store) (r : UserCred)
    (attributes : Option (List (String × String))) : Store × UserCred :=
  match attributes with
  | none => (store, r)
  | some attrs =>
    let r := { r with attributes := some attrs }
    (saveCred store r, r)

/-- Modelled from the spec: `set_credential_date_override` of
`AbstractCredentialIssuer` (not in this slice) — simple field assignment of
the optional date override. -/
def set_credential_date_override (store : Store) (r : UserCred)
    (dateOverride : Option String) : Store × UserCred :=
  match dateOverride with
  | none => (store, r)
  | some d =>
    let r := { r with dateOverride := some d }
    (saveCred store r, r)

/-- `BadgeTemplateIssuer.issue_credential`: get-or-create the row keyed by
`(username, content type of the definition, definition id)`; unless the
row's `state` equals the provider's terminal revocation state, overwrite
`status` and save; then apply the attribute and date overrides. -/
def issue_credential (k : IssuerKind) (env : Env) (store : Store)
    (cred : BadgeDef) (username : String) (status : String)
    (attributes : Option (List (String × String)) := none)
    (dateOverride : Option String := none) : Store × UserCred :=
  let gc := getOrCreate k env store username cred.id status
  let store := gc.1
  let uc := gc.2.1
  let su :=
    if !stateEqualsRevocation k uc then
      let uc := { uc with status := status }
      (saveCred store uc, uc)
    else
      (store, uc)
  let sa := set_credential_attributes su.1 su.2 attributes
  let sd := set_credential_date_override sa.1 sa.2 dateOverride
  sd

/-- `BadgeTemplateIssuer.award`: resolve the definition, issue the
credential with the default status AWARDED, emit the "awarded"
notification, return the record. -/
def base_award (k : IssuerKind) (env : Env) (store : Store)
    (username : String) (cid : Nat) : Outcome :=
  match get_credential k env cid with
  | none => .notFound ⟨store, [], 0, 0⟩
  | some cred =>
    let iu := issue_credential k env store cred username STATUS_AWARDED
    .ok ⟨iu.1, [.awarded iu.2], 0, 0⟩ iu.2

/-- `BadgeTemplateIssuer.revoke`: resolve the definition, issue the
credential with status REVOKED, emit the "revoked" notification, return the
record. -/
def base_revoke (k : IssuerKind) (env : Env) (store : Store)
    (cid : Nat) (username : String) : Outcome :=
  match get_credential k env cid with
  | none => .notFound ⟨store, [], 0, 0⟩
  | some cred =>
    let iu := issue_credential k env store cred username STATUS_REVOKED
    .ok ⟨iu.1, [.revoked iu.2], 0, 0⟩ iu.2

/-- `CredlyBadgeTemplateIssuer.issue_credly_badge`: look the user and the
badge template up, build the Credly payload (name fields falling back to
the username when blank), call the provider's issue operation; on
`BadgeProviderError` set local `state = "error"`, persist, re-raise; on
success copy the response's `data.id` into `external_uuid` and `data.state`
into `state`, and persist. -/
def issue_credly_badge (env : Env) (store : Store) (uc : UserCred) :
    ExtResult :=
  let user := env.users uc.username
  match env.defs DefType.credlyBadgeTemplate uc.credentialId with
  | none => .missing
  | some badge_template =>
    let credly_badge_data : CredlyBadgeData :=
      { recipient_email := user.email
        issued_to_first_name :=
          if user.first_name == "" then user.username else user.first_name
        issued_to_last_name :=
          if user.last_name == "" then user.username else user.last_name
        badge_template_id := badge_template.uuid
        issued_at := badge_template.createdFmt }
    match env.credlyIssue badge_template.orgUuid credly_badge_data with
    | none =>
      let uc := { uc with state := "error" }
      .fail (saveCred store uc) uc
    | some resp =>
      let uc := { uc with externalUuid := some resp.id, state := resp.state }
      .ok (saveCred store uc) uc

/-- `CredlyBadgeTemplateIssuer.revoke_credly_badge`: re-fetch the
definition for its organization uuid, call the provider's revoke operation
keyed by the stored `external_uuid` with the fixed reason; on error set
`state = "error"`, persist, re-raise; on success copy the response's
`data.state` into `state`, and persist. -/
def revoke_credly_badge (env : Env) (store : Store) (cid : Nat)
    (uc : UserCred) : ExtResult :=
  match env.defs DefType.credlyBadgeTemplate cid with
  | none => .missing
  | some credential =>
    match env.credlyRevoke credential.orgUuid uc.externalUuid
        CREDLY_REVOKE_REASON with
    | none =>
      let uc := { uc with state := "error" }
      .fail (saveCred store uc) uc
    | some st =>
      let uc := { uc with state := st }
      .ok (saveCred store uc) uc

/-- `CredlyBadgeTemplateIssuer.award`: base `award`, then — only when the
record is not yet `propagated` — the external Credly issue call. -/
def credly_award (env : Env) (store : Store) (username : String)
    (cid : Nat) : Outcome :=
  match base_award .credly env store username cid with
  | .ok eff uc =>
    if !uc.propagated then
      match issue_credly_badge env eff.store uc with
      | .ok store' uc' =>
        .ok { eff with store := store', issueCalls := eff.issueCalls + 1 } uc'
      | .fail store' _ =>
        .providerError
          { eff with store := store', issueCalls := eff.issueCalls + 1 }
      | .missing => .notFound eff
    else
      .ok eff uc
  | o => o

/-- `CredlyBadgeTemplateIssuer.revoke`: base `revoke`, then — only when the
record is `propagated` — the external Credly revoke call. -/
def credly_revoke (env : Env) (store : Store) (cid : Nat)
    (username : String) : Outcome :=
  match base_revoke .credly env store cid username with
  | .ok eff uc =>
    if uc.propagated then
      match revoke_credly_badge env eff.store cid uc with
      | .ok store' uc' =>
        .ok { eff with store := store', revokeCalls := eff.revokeCalls + 1 } uc'
      | .fail store' _ =>
        .providerError
          { eff with store := store', revokeCalls := eff.revokeCalls + 1 }
      | .missing => .notFound eff
    else
      .ok eff uc
  | o => o

/-- `AccredibleBadgeTemplateIssuer.issue_accredible_badge`: look the user
and the group up, build the Accredible payload (recipient name falling back
to the username when the full name is blank, `complete` always true), call
the provider's issue operation; on error set `state = "error"`, persist,
re-raise; on success copy the response's `credential.id` into
`external_id`, force `state` to the fixed accepted constant, persist. -/
def issue_accredible_badge (env : Env) (store : Store) (uc : UserCred) :
    ExtResult :=
  let user := env.users uc.username
  match env.defs DefType.accredibleGroup uc.credentialId with
  | none => .missing
  | some group =>
    let accredible_badge_data : AccredibleBadgeData :=
      { credential :=
        { recipient :=
            { name :=
                if user.full_name == "" then user.username else user.full_name
              email := user.email }
          group_id := group.id
          name := group.name
          issued_on := uc.createdFmt
          complete := true } }
    match env.accredibleIssue group.apiConfigId accredible_badge_data with
    | none =>
      let uc := { uc with state := "error" }
      .fail (saveCred store uc) uc
    | some i =>
      let uc :=
        { uc with externalId := some i, state := ACCREDIBLE_STATE_ACCEPTED }
      .ok (saveCred store uc) uc

/-- `AccredibleBadgeTemplateIssuer.revoke_accredible_badge`: re-fetch the
definition for its api-config id, call the provider's revoke operation
keyed by the stored `external_id` with an `expired_on` timestamp of now; on
error set `state = "error"`, persist, re-raise; on success force `state` to
the fixed expired constant, persist (the response body is not read). -/
def revoke_accredible_badge (env : Env) (store : Store) (cid : Nat)
    (uc : UserCred) : ExtResult :=
  match env.defs DefType.accredibleGroup cid with
  | none => .missing
  | some credential =>
    let revoke_badge_data : AccredibleExpireBadgeData :=
      { credential := { expired_on := env.nowFmt } }
    if env.accredibleRevoke credential.apiConfigId uc.externalId
        revoke_badge_data then
      let uc := { uc with state := ACCREDIBLE_STATE_EXPIRED }
      .ok (saveCred store uc) uc
    else
      let uc := { uc with state := "error" }
      .fail (saveCred store uc) uc

/-- `AccredibleBadgeTemplateIssuer.award`: base `award`, then — only when
the record is not yet `propagated` — the external Accredible issue call. -/
def accredible_award (env : Env) (store : Store) (username : String)
    (cid : Nat) : Outcome :=
  match base_award .accredible env store username cid with
  | .ok eff uc =>
    if !uc.propagated then
      match issue_accredible_badge env eff.store uc with
      | .ok store' uc' =>
        .ok { eff with store := store', issueCalls := eff.issueCalls + 1 } uc'
      | .fail store' _ =>
        .providerError
          { eff with store := store', issueCalls := eff.issueCalls + 1 }
      | .missing => .notFound eff
    else
      .ok eff uc
  | o => o

/-- `AccredibleBadgeTemplateIssuer.revoke`: base `revoke`, then — only when
the record is `propagated` — the external Accredible revoke call. -/
def accredible_revoke (env : Env) (store : Store) (cid : Nat)
    (username : String) : Outcome :=
  match base_revoke .accredible env store cid username with
  | .ok eff uc =>
    if uc.propagated then
      match revoke_accredible_badge env eff.store cid uc with
      | .ok store' uc' =>
        .ok { eff with store := store', revokeCalls := eff.revokeCalls + 1 } uc'
      | .fail store' _ =>
        .providerError
          { eff with store := store', revokeCalls := eff.revokeCalls + 1 }
      | .missing => .notFound eff
    else
      .ok eff uc
  | o => o

/-- Dynamic dispatch of `award` over the three issuer classes. -/
def award : IssuerKind → Env → Store → String → Nat → Outcome
  | .base => fun env store username cid => base_award .base env store username cid
  | .credly => credly_award
  | .accredible => accredible_award

/-- Dynamic dispatch of `revoke` over the three issuer classes. -/
def revoke : IssuerKind → Env → Store → Nat → String → Outcome
  | .base => fun env store cid username => base_revoke .base env store cid username
  | .credly => credly_revoke
  | .accredible => accredible_revoke

/-- The stores reachable from the empty store by any sequence of
`award`/`revoke` calls against any issuer and any environment (provider
calls may succeed or fail at each step; failed calls persist their partial
stores too). -/
inductive Reachable : Store → Prop
  | empty : Reachable []
  | step_award (k : IssuerKind) (env : Env) (s : Store) (u : String) (c : Nat) :
      Reachable s → Reachable (award k env s u c).store
  | step_revoke (k : IssuerKind) (env : Env) (s : Store) (c : Nat) (u : String) :
      Reachable s → Reachable (revoke k env s c u).store

/-! ## Store lemmas -/

theorem pk_lt_freshPk {s : Store} {r : UserCred} (h : r ∈ s) :
    r.pk < freshPk s := by
  induction s with
  | nil => cases h
  | cons x xs ih =>
    have hfold : freshPk (x :: xs) = max (x.pk + 1) (freshPk xs) := rfl
    rcases List.mem_cons.mp h with h | h
    · rw [hfold, h]
      exact lt_max_of_lt_left (Nat.lt_succ_self x.pk)
    · rw [hfold]
      exact lt_max_of_lt_right (ih h)

theorem pk_ne_freshPk {s : Store} {r : UserCred} (h : r ∈ s) :
    r.pk ≠ freshPk s :=
  Nat.ne_of_lt (pk_lt_freshPk h)

theorem saveCred_of_pk_notin {s : Store} {r : UserCred}
    (h : ∀ x ∈ s, x.pk ≠ r.pk) : saveCred s r = s := by
  induction s with
  | nil => rfl
  | cons x xs ih =>
    have hx : x.pk ≠ r.pk := h x (List.mem_cons_self x xs)
    have hxs : saveCred xs r = xs :=
      ih fun y hy => h y (List.mem_cons_of_mem x hy)
    show (if x.pk = r.pk then r else x) :: saveCred xs r = x :: xs
    rw [if_neg hx, hxs]

theorem saveCred_append_fresh {s : Store} {r0 r : UserCred}
    (hpk : ∀ x ∈ s, x.pk ≠ r.pk) (h0 : r0.pk = r.pk) :
    saveCred (s ++ [r0]) r = s ++ [r] := by
  have hs : saveCred s r = s := saveCred_of_pk_notin hpk
  simp only [saveCred, List.map_append, List.map_cons, List.map_nil] at *
  rw [if_pos h0, hs]

theorem saveCred_saveCred {s : Store} {r1 r2 : UserCred} (h : r1.pk = r2.pk) :
    saveCred (saveCred s r1) r2 = saveCred s r2 := by
  simp only [saveCred, List.map_map]
  apply List.map_congr_left
  intro x _
  simp only [Function.comp_apply]
  by_cases hx : x.pk = r1.pk
  · rw [if_pos hx, if_pos h, if_pos (hx.trans h)]
  · rw [if_neg hx]

theorem findCred_eq_none_iff {s : Store} {k : IssuerKind} {u : String}
    {c : Nat} :
    findCred s k u c = none ↔ ∀ r ∈ s, credKeyMatches k u c r = false := by
  simp only [findCred, List.find?_eq_none, Bool.not_eq_true]

theorem findCred_append_match {s : Store} {k : IssuerKind} {u : String}
    {c : Nat} {r : UserCred} (h : findCred s k u c = none)
    (hr : credKeyMatches k u c r = true) :
    findCred (s ++ [r]) k u c = some r := by
  induction s with
  | nil =>
    show List.find? _ [r] = some r
    simp [List.find?, hr]
  | cons x xs ih =>
    have hx : credKeyMatches k u c x = false :=
      findCred_eq_none_iff.mp h x (List.mem_cons_self x xs)
    have hxs : findCred xs k u c = none :=
      findCred_eq_none_iff.mpr fun y hy =>
        findCred_eq_none_iff.mp h y (List.mem_cons_of_mem x hy)
    show List.find? _ (x :: (xs ++ [r])) = some r
    rw [List.find?_cons_of_neg _ (by simp [hx])]
    exact ih hxs

theorem countKey_append (s : Store) (k : IssuerKind) (u : String) (c : Nat)
    (r : UserCred) :
    countKey (s ++ [r]) k u c =
      countKey s k u c + if credKeyMatches k u c r then 1 else 0 := by
  simp only [countKey, List.filter_append, List.length_append]
  by_cases h : credKeyMatches k u c r <;> simp [h, List.filter]

theorem countKey_eq_zero {s : Store} {k : IssuerKind} {u : String} {c : Nat}
    (h : findCred s k u c = none) : countKey s k u c = 0 := by
  simp only [countKey, List.length_eq_zero, List.filter_eq_nil_iff]
  intro r hr
  simp [findCred_eq_none_iff.mp h r hr]

theorem key_facts_of_findCred_some {s : Store} {k : IssuerKind} {u : String}
    {c : Nat} {uc : UserCred} (h : findCred s k u c = some uc) :
    uc ∈ s ∧ uc.ctype = k.userCredType ∧ uc.username = u ∧
      uc.credentialContentType = k.defType ∧ uc.credentialId = c := by
  refine ⟨List.mem_of_find?_eq_some h, ?_⟩
  have hm := List.find?_some h
  simp only [credKeyMatches, Bool.and_eq_true, beq_iff_eq] at hm
  exact ⟨hm.1.1.1, hm.1.1.2, hm.1.2, hm.2⟩

/-! ## Anatomy of `issue_credential` and the base operations -/

theorem credKeyMatches_newRec (k : IssuerKind) (env : Env) (store : Store)
    (u : String) (cid : Nat) (status : String) :
    credKeyMatches k u cid (newRec k env store u cid status) = true := by
  simp [credKeyMatches, newRec]

theorem stateEqualsRevocation_newRec (k : IssuerKind) (env : Env)
    (store : Store) (u : String) (cid : Nat) (status : String) :
    stateEqualsRevocation k (newRec k env store u cid status) = false := by
  cases k <;> rfl

theorem issue_credential_create (k : IssuerKind) (env : Env) (store : Store)
    (cred : BadgeDef) (username status : String)
    (h0 : findCred store k username cred.id = none) :
    issue_credential k env store cred username status =
      (store ++ [newRec k env store username cred.id status],
        newRec k env store username cred.id status) := by
  have heta : ({ newRec k env store username cred.id status with
      status := status } : UserCred) =
      newRec k env store username cred.id status := rfl
  have hsave : saveCred (store ++ [newRec k env store username cred.id status])
      (newRec k env store username cred.id status) =
      store ++ [newRec k env store username cred.id status] :=
    saveCred_append_fresh (fun x hx => pk_ne_freshPk hx) rfl
  simp only [issue_credential, getOrCreate, h0, stateEqualsRevocation_newRec,
    Bool.not_false, if_true, heta, hsave, set_credential_attributes,
    set_credential_date_override]

theorem issue_credential_found (k : IssuerKind) (env : Env) (store : Store)
    (cred : BadgeDef) (username status : String) (uc : UserCred)
    (h : findCred store k username cred.id = some uc) :
    issue_credential k env store cred username status =
      if stateEqualsRevocation k uc then (store, uc)
      else (saveCred store { uc with status := status },
        { uc with status := status }) := by
  by_cases hg : stateEqualsRevocation k uc <;>
    simp [issue_credential, getOrCreate, h, hg, set_credential_attributes,
      set_credential_date_override]

theorem base_award_of_credential (k : IssuerKind) (env : Env) (store : Store)
    (username : String) (cid : Nat) (cred : BadgeDef)
    (hd : get_credential k env cid = some cred) :
    base_award k env store username cid =
      Outcome.ok
        ⟨(issue_credential k env store cred username STATUS_AWARDED).1,
          [Notif.awarded
            (issue_credential k env store cred username STATUS_AWARDED).2],
          0, 0⟩
        (issue_credential k env store cred username STATUS_AWARDED).2 := by
  simp [base_award, hd]

theorem base_revoke_of_credential (k : IssuerKind) (env : Env) (store : Store)
    (username : String) (cid : Nat) (cred : BadgeDef)
    (hd : get_credential k env cid = some cred) :
    base_revoke k env store cid username =
      Outcome.ok
        ⟨(issue_credential k env store cred username STATUS_REVOKED).1,
          [Notif.revoked
            (issue_credential k env store cred username STATUS_REVOKED).2],
          0, 0⟩
        (issue_credential k env store cred username STATUS_REVOKED).2 := by
  simp [base_revoke, hd]

/-! ## Case characterizations of the external provider steps -/

theorem issue_credly_badge_cases (env : Env) (store : Store) (uc : UserCred) :
    issue_credly_badge env store uc = ExtResult.missing ∨
    (∃ i st, issue_credly_badge env store uc =
      ExtResult.ok
        (saveCred store { uc with externalUuid := some i, state := st })
        { uc with externalUuid := some i, state := st }) ∨
    issue_credly_badge env store uc =
      ExtResult.fail (saveCred store { uc with state := "error" })
        { uc with state := "error" } := by
  unfold issue_credly_badge
  dsimp only
  split
  · exact Or.inl rfl
  · split
    · exact Or.inr (Or.inr rfl)
    · exact Or.inr (Or.inl ⟨_, _, rfl⟩)

theorem revoke_credly_badge_cases (env : Env) (store : Store) (cid : Nat)
    (uc : UserCred) :
    revoke_credly_badge env store cid uc = ExtResult.missing ∨
    (∃ st, revoke_credly_badge env store cid uc =
      ExtResult.ok (saveCred store { uc with state := st })
        { uc with state := st }) ∨
    revoke_credly_badge env store cid uc =
      ExtResult.fail (saveCred store { uc with state := "error" })
        { uc with state := "error" } := by
  unfold revoke_credly_badge
  dsimp only
  split
  · exact Or.inl rfl
  · split
    · exact Or.inr (Or.inr rfl)
    · exact Or.inr (Or.inl ⟨_, rfl⟩)

theorem issue_accredible_badge_cases (env : Env) (store : Store)
    (uc : UserCred) :
    issue_accredible_badge env store uc = ExtResult.missing ∨
    (∃ i, issue_accredible_badge env store uc =
      ExtResult.ok
        (saveCred store
          { uc with externalId := some i, state := ACCREDIBLE_STATE_ACCEPTED })
        { uc with externalId := some i, state := ACCREDIBLE_STATE_ACCEPTED }) ∨
    issue_accredible_badge env store uc =
      ExtResult.fail (saveCred store { uc with state := "error" })
        { uc with state := "error" } := by
  unfold issue_accredible_badge
  dsimp only
  split
  · exact Or.inl rfl
  · split
    · exact Or.inr (Or.inr rfl)
    · exact Or.inr (Or.inl ⟨_, rfl⟩)

theorem revoke_accredible_badge_cases (env : Env) (store : Store) (cid : Nat)
    (uc : UserCred) :
    revoke_accredible_badge env store cid uc = ExtResult.missing ∨
    revoke_accredible_badge env store cid uc =
      ExtResult.ok
        (saveCred store { uc with state := ACCREDIBLE_STATE_EXPIRED })
        { uc with state := ACCREDIBLE_STATE_EXPIRED } ∨
    revoke_accredible_badge env store cid uc =
      ExtResult.fail (saveCred store { uc with state := "error" })
        { uc with state := "error" } := by
  unfold revoke_accredible_badge
  dsimp only
  split
  · exact Or.inl rfl
  · split
    · exact Or.inr (Or.inl rfl)
    · exact Or.inr (Or.inr rfl)

/-! ## The terminal-state invariant

A row whose `state` equals its own class's terminal revocation/expiry
constant got that state from a provider round-trip, so it carries its
external identifier and is `propagated`. This holds of every store the
operations can produce. -/

/-- The row's `state` equals its class's terminal revocation state. -/
def recTerminal (r : UserCred) : Bool :=
  match REVOCATION_STATES r.ctype with
  | some s => r.state == s
  | none => false

/-- A row in a terminal revocation state is `propagated`. -/
def InvP (r : UserCred) : Prop := recTerminal r = true → r.propagated = true

/-- All rows of the store satisfy `InvP`. -/
def StoreInv (s : Store) : Prop := ∀ r ∈ s, InvP r

theorem storeInv_saveCred {s : Store} {r : UserCred} (hs : StoreInv s)
    (hr : InvP r) : StoreInv (saveCred s r) := by
  intro x hx
  rcases List.mem_map.mp hx with ⟨y, hy, rfl⟩
  split
  · exact hr
  · exact hs y hy

theorem storeInv_append {s : Store} {r : UserCred} (hs : StoreInv s)
    (hr : InvP r) : StoreInv (s ++ [r]) := by
  intro x hx
  rcases List.mem_append.mp hx with hx | hx
  · exact hs x hx
  · rw [List.mem_singleton.mp hx]
    exact hr

theorem recTerminal_newRec (k : IssuerKind) (env : Env) (store : Store)
    (u : String) (cid : Nat) (status : String) :
    recTerminal (newRec k env store u cid status) = false := by
  cases k <;> rfl

theorem invP_newRec (k : IssuerKind) (env : Env) (store : Store) (u : String)
    (cid : Nat) (status : String) : InvP (newRec k env store u cid status) :=
  fun h => absurd ((recTerminal_newRec k env store u cid status).symm.trans h)
    (by simp)

theorem invP_setStatus {r : UserCred} (h : InvP r) (status : String) :
    InvP { r with status := status } := h

theorem recTerminal_error (uc : UserCred) :
    recTerminal { uc with state := "error" } = false := by
  show (match REVOCATION_STATES uc.ctype with
    | some s => (("error" : String) == s)
    | none => false) = false
  rcases uc.ctype <;> rfl

theorem invP_error (uc : UserCred) : InvP { uc with state := "error" } :=
  fun h => absurd ((recTerminal_error uc).symm.trans h) (by simp)

theorem invP_credly_ext {uc : UserCred}
    (hct : uc.ctype = CredType.credlyBadge) (i st : String) :
    InvP { uc with externalUuid := some i, state := st } := by
  intro _
  show (match uc.ctype with
    | CredType.credlyBadge => (some i).isSome
    | CredType.accredibleBadge => uc.externalId.isSome
    | CredType.userCredential => false) = true
  rw [hct]
  rfl

theorem invP_accredible_ext {uc : UserCred}
    (hct : uc.ctype = CredType.accredibleBadge) (i : Nat) (st : String) :
    InvP { uc with externalId := some i, state := st } := by
  intro _
  show (match uc.ctype with
    | CredType.credlyBadge => uc.externalUuid.isSome
    | CredType.accredibleBadge => (some i).isSome
    | CredType.userCredential => false) = true
  rw [hct]
  rfl

theorem invP_setState_of_propagated {uc : UserCred}
    (hp : uc.propagated = true) (st : String) :
    InvP { uc with state := st } := fun _ => hp

theorem issue_credential_inv (k : IssuerKind) (env : Env) (store : Store)
    (cred : BadgeDef) (username status : String) (hs : StoreInv store) :
    StoreInv (issue_credential k env store cred username status).1 ∧
      InvP (issue_credential k env store cred username status).2 ∧
      credKeyMatches k username cred.id
        (issue_credential k env store cred username status).2 = true := by
  rcases hf : findCred store k username cred.id with _ | uc
  · rw [issue_credential_create k env store cred username status hf]
    exact ⟨storeInv_append hs (invP_newRec _ _ _ _ _ _),
      invP_newRec _ _ _ _ _ _, credKeyMatches_newRec _ _ _ _ _ _⟩
  · have hfacts := key_facts_of_findCred_some hf
    have hkey := List.find?_some hf
    have hucP : InvP uc := hs uc hfacts.1
    rw [issue_credential_found k env store cred username status uc hf]
    by_cases hg : stateEqualsRevocation k uc
    · rw [if_pos hg]
      exact ⟨hs, hucP, hkey⟩
    · rw [if_neg hg]
      exact ⟨storeInv_saveCred hs (invP_setStatus hucP status),
        invP_setStatus hucP status, hkey⟩

theorem ctype_of_key {k : IssuerKind} {u : String} {c : Nat} {r : UserCred}
    (h : credKeyMatches k u c r = true) : r.ctype = k.userCredType := by
  simp only [credKeyMatches, Bool.and_eq_true, beq_iff_eq] at h
  exact h.1.1.1

theorem base_award_store_inv (k : IssuerKind) (env : Env) (s : Store)
    (u : String) (c : Nat) (hs : StoreInv s) :
    StoreInv (base_award k env s u c).store := by
  rcases hd : get_credential k env c with _ | cred <;>
    simp only [base_award, hd]
  · exact hs
  · exact (issue_credential_inv k env s cred u STATUS_AWARDED hs).1

theorem base_award_ok_inv (k : IssuerKind) (env : Env) (s : Store)
    (u : String) (c : Nat) (eff : Effects) (uc : UserCred) (hs : StoreInv s)
    (h : base_award k env s u c = Outcome.ok eff uc) :
    StoreInv eff.store ∧ InvP uc ∧ uc.ctype = k.userCredType := by
  rcases hd : get_credential k env c with _ | cred <;>
    simp only [base_award, hd] at h
  · exact Outcome.noConfusion h
  · have hinv := issue_credential_inv k env s cred u STATUS_AWARDED hs
    injection h with h1 h2
    subst h1
    subst h2
    exact ⟨hinv.1, hinv.2.1, ctype_of_key hinv.2.2⟩

theorem base_award_notFound_store (k : IssuerKind) (env : Env) (s : Store)
    (u : String) (c : Nat) (eff : Effects)
    (h : base_award k env s u c = Outcome.notFound eff) : eff.store = s := by
  rcases hd : get_credential k env c with _ | cred <;>
    simp only [base_award, hd] at h
  · injection h with h1
    rw [← h1]
  · exact Outcome.noConfusion h

theorem base_award_ne_providerError (k : IssuerKind) (env : Env) (s : Store)
    (u : String) (c : Nat) (eff : Effects) :
    base_award k env s u c ≠ Outcome.providerError eff := by
  rcases hd : get_credential k env c with _ | cred <;> simp [base_award, hd]

theorem base_revoke_store_inv (k : IssuerKind) (env : Env) (s : Store)
    (c : Nat) (u : String) (hs : StoreInv s) :
    StoreInv (base_revoke k env s c u).store := by
  rcases hd : get_credential k env c with _ | cred <;>
    simp only [base_revoke, hd]
  · exact hs
  · exact (issue_credential_inv k env s cred u STATUS_REVOKED hs).1

theorem base_revoke_ok_inv (k : IssuerKind) (env : Env) (s : Store)
    (c : Nat) (u : String) (eff : Effects) (uc : UserCred) (hs : StoreInv s)
    (h : base_revoke k env s c u = Outcome.ok eff uc) :
    StoreInv eff.store ∧ InvP uc ∧ uc.ctype = k.userCredType := by
  rcases hd : get_credential k env c with _ | cred <;>
    simp only [base_revoke, hd] at h
  · exact Outcome.noConfusion h
  · have hinv := issue_credential_inv k env s cred u STATUS_REVOKED hs
    injection h with h1 h2
    subst h1
    subst h2
    exact ⟨hinv.1, hinv.2.1, ctype_of_key hinv.2.2⟩

theorem base_revoke_notFound_store (k : IssuerKind) (env : Env) (s : Store)
    (c : Nat) (u : String) (eff : Effects)
    (h : base_revoke k env s c u = Outcome.notFound eff) : eff.store = s := by
  rcases hd : get_credential k env c with _ | cred <;>
    simp only [base_revoke, hd] at h
  · injection h with h1
    rw [← h1]
  · exact Outcome.noConfusion h

theorem base_revoke_ne_providerError (k : IssuerKind) (env : Env) (s : Store)
    (c : Nat) (u : String) (eff : Effects) :
    base_revoke k env s c u ≠ Outcome.providerError eff := by
  rcases hd : get_credential k env c with _ | cred <;> simp [base_revoke, hd]

theorem credly_award_storeInv (env : Env) (s : Store) (u : String) (c : Nat)
    (hs : StoreInv s) : StoreInv (credly_award env s u c).store := by
  rcases ho : base_award .credly env s u c with ⟨eff, uc⟩ | ⟨eff⟩ | ⟨eff⟩
  · obtain ⟨heff, hucP, hct⟩ := base_award_ok_inv .credly env s u c eff uc hs ho
    by_cases hp : uc.propagated
    · simp only [credly_award, ho, hp, Bool.not_true, Bool.false_eq_true,
        if_false]
      exact heff
    · have hp' : uc.propagated = false := by simpa using hp
      rcases issue_credly_badge_cases env eff.store uc with
        hm | ⟨i, st, hok⟩ | hfail
      · simp only [credly_award, ho, hp', Bool.not_false, if_true, hm]
        exact heff
      · simp only [credly_award, ho, hp', Bool.not_false, if_true, hok]
        exact storeInv_saveCred heff (invP_credly_ext hct i st)
      · simp only [credly_award, ho, hp', Bool.not_false, if_true, hfail]
        exact storeInv_saveCred heff (invP_error uc)
  · simp only [credly_award, ho]
    rw [show (Outcome.notFound eff).store = eff.store from rfl,
      base_award_notFound_store .credly env s u c eff ho]
    exact hs
  · exact absurd ho (base_award_ne_providerError .credly env s u c eff)

theorem credly_revoke_storeInv (env : Env) (s : Store) (c : Nat) (u : String)
    (hs : StoreInv s) : StoreInv (credly_revoke env s c u).store := by
  rcases ho : base_revoke .credly env s c u with ⟨eff, uc⟩ | ⟨eff⟩ | ⟨eff⟩
  · obtain ⟨heff, hucP, hct⟩ := base_revoke_ok_inv .credly env s c u eff uc hs ho
    by_cases hp : uc.propagated
    · rcases revoke_credly_badge_cases env eff.store c uc with
        hm | ⟨st, hok⟩ | hfail
      · simp only [credly_revoke, ho, hp, if_true, hm]
        exact heff
      · simp only [credly_revoke, ho, hp, if_true, hok]
        exact storeInv_saveCred heff (invP_setState_of_propagated hp st)
      · simp only [credly_revoke, ho, hp, if_true, hfail]
        exact storeInv_saveCred heff (invP_error uc)
    · have hp' : uc.propagated = false := by simpa using hp
      simp only [credly_revoke, ho, hp', Bool.false_eq_true, if_false]
      exact heff
  · simp only [credly_revoke, ho]
    rw [show (Outcome.notFound eff).store = eff.store from rfl,
      base_revoke_notFound_store .credly env s c u eff ho]
    exact hs
  · exact absurd ho (base_revoke_ne_providerError .credly env s c u eff)

theorem accredible_award_storeInv (env : Env) (s : Store) (u : String)
    (c : Nat) (hs : StoreInv s) :
    StoreInv (accredible_award env s u c).store := by
  rcases ho : base_award .accredible env s u c with ⟨eff, uc⟩ | ⟨eff⟩ | ⟨eff⟩
  · obtain ⟨heff, hucP, hct⟩ :=
      base_award_ok_inv .accredible env s u c eff uc hs ho
    by_cases hp : uc.propagated
    · simp only [accredible_award, ho, hp, Bool.not_true, Bool.false_eq_true,
        if_false]
      exact heff
    · have hp' : uc.propagated = false := by simpa using hp
      rcases issue_accredible_badge_cases env eff.store uc with
        hm | ⟨i, hok⟩ | hfail
      · simp only [accredible_award, ho, hp', Bool.not_false, if_true, hm]
        exact heff
      · simp only [accredible_award, ho, hp', Bool.not_false, if_true, hok]
        exact storeInv_saveCred heff
          (invP_accredible_ext hct i ACCREDIBLE_STATE_ACCEPTED)
      · simp only [accredible_award, ho, hp', Bool.not_false, if_true, hfail]
        exact storeInv_saveCred heff (invP_error uc)
  · simp only [accredible_award, ho]
    rw [show (Outcome.notFound eff).store = eff.store from rfl,
      base_award_notFound_store .accredible env s u c eff ho]
    exact hs
  · exact absurd ho (base_award_ne_providerError .accredible env s u c eff)

theorem accredible_revoke_storeInv (env : Env) (s : Store) (c : Nat)
    (u : String) (hs : StoreInv s) :
    StoreInv (accredible_revoke env s c u).store := by
  rcases ho : base_revoke .accredible env s c u with ⟨eff, uc⟩ | ⟨eff⟩ | ⟨eff⟩
  · obtain ⟨heff, hucP, hct⟩ :=
      base_revoke_ok_inv .accredible env s c u eff uc hs ho
    by_cases hp : uc.propagated
    · rcases revoke_accredible_badge_cases env eff.store c uc with
        hm | hok | hfail
      · simp only [accredible_revoke, ho, hp, if_true, hm]
        exact heff
      · simp only [accredible_revoke, ho, hp, if_true, hok]
        exact storeInv_saveCred heff
          (invP_setState_of_propagated hp ACCREDIBLE_STATE_EXPIRED)
      · simp only [accredible_revoke, ho, hp, if_true, hfail]
        exact storeInv_saveCred heff (invP_error uc)
    · have hp' : uc.propagated = false := by simpa using hp
      simp only [accredible_revoke, ho, hp', Bool.false_eq_true, if_false]
      exact heff
  · simp only [accredible_revoke, ho]
    rw [show (Outcome.notFound eff).store = eff.store from rfl,
      base_revoke_notFound_store .accredible env s c u eff ho]
    exact hs
  · exact absurd ho (base_revoke_ne_providerError .accredible env s c u eff)

theorem award_storeInv (k : IssuerKind) (env : Env) (s : Store) (u : String)
    (c : Nat) (hs : StoreInv s) : StoreInv (award k env s u c).store := by
  cases k
  · exact base_award_store_inv .base env s u c hs
  · exact credly_award_storeInv env s u c hs
  · exact accredible_award_storeInv env s u c hs

theorem revoke_storeInv (k : IssuerKind) (env : Env) (s : Store) (c : Nat)
    (u : String) (hs : StoreInv s) : StoreInv (revoke k env s c u).store := by
  cases k
  · exact base_revoke_store_inv .base env s c u hs
  · exact credly_revoke_storeInv env s c u hs
  · exact accredible_revoke_storeInv env s c u hs

/-- Every reachable store satisfies the terminal-state invariant: a row in
its class's terminal revocation/expiry state is `propagated`. -/
theorem reachable_storeInv {s : Store} (h : Reachable s) : StoreInv s := by
  induction h with
  | empty => intro r hr; cases hr
  | step_award k env s' u c _ ih => exact award_storeInv k env s' u c ih
  | step_revoke k env s' c u _ ih => exact revoke_storeInv k env s' c u ih

/-! ## Helpers for the claim proofs -/

theorem propagated_newRec (k : IssuerKind) (env : Env) (store : Store)
    (u : String) (cid : Nat) (status : String) :
    (newRec k env store u cid status).propagated = false := by
  cases k <;> rfl

theorem issue_credential_found_facts (k : IssuerKind) (env : Env)
    (store : Store) (cred : BadgeDef) (username status : String)
    (uc : UserCred) (hf : findCred store k username cred.id = some uc) :
    (issue_credential k env store cred username status).2.propagated =
        uc.propagated ∧
      (issue_credential k env store cred username status).2.credentialId =
        uc.credentialId := by
  rw [issue_credential_found k env store cred username status uc hf]
  by_cases hg : stateEqualsRevocation k uc
  · rw [if_pos hg]
    exact ⟨rfl, rfl⟩
  · rw [if_neg hg]
    exact ⟨rfl, rfl⟩

theorem issue_credly_badge_calls (env : Env) (store : Store) (uc : UserCred)
    (cred : BadgeDef)
    (hd : env.defs DefType.credlyBadgeTemplate uc.credentialId = some cred) :
    (∃ s r, issue_credly_badge env store uc = ExtResult.ok s r) ∨
    ∃ s r, issue_credly_badge env store uc = ExtResult.fail s r := by
  simp only [issue_credly_badge, hd]
  split
  · exact Or.inr ⟨_, _, rfl⟩
  · exact Or.inl ⟨_, _, rfl⟩

theorem revoke_credly_badge_calls (env : Env) (store : Store) (cid : Nat)
    (uc : UserCred) (cred : BadgeDef)
    (hd : env.defs DefType.credlyBadgeTemplate cid = some cred) :
    (∃ s r, revoke_credly_badge env store cid uc = ExtResult.ok s r) ∨
    ∃ s r, revoke_credly_badge env store cid uc = ExtResult.fail s r := by
  simp only [revoke_credly_badge, hd]
  split
  · exact Or.inr ⟨_, _, rfl⟩
  · exact Or.inl ⟨_, _, rfl⟩

theorem issue_accredible_badge_calls (env : Env) (store : Store)
    (uc : UserCred) (cred : BadgeDef)
    (hd : env.defs DefType.accredibleGroup uc.credentialId = some cred) :
    (∃ s r, issue_accredible_badge env store uc = ExtResult.ok s r) ∨
    ∃ s r, issue_accredible_badge env store uc = ExtResult.fail s r := by
  simp only [issue_accredible_badge, hd]
  split
  · exact Or.inr ⟨_, _, rfl⟩
  · exact Or.inl ⟨_, _, rfl⟩

theorem revoke_accredible_badge_calls (env : Env) (store : Store) (cid : Nat)
    (uc : UserCred) (cred : BadgeDef)
    (hd : env.defs DefType.accredibleGroup cid = some cred) :
    (∃ s r, revoke_accredible_badge env store cid uc = ExtResult.ok s r) ∨
    ∃ s r, revoke_accredible_badge env store cid uc = ExtResult.fail s r := by
  simp only [revoke_accredible_badge, hd]
  split
  · exact Or.inl ⟨_, _, rfl⟩
  · exact Or.inr ⟨_, _, rfl⟩

/-! ## Concrete fixtures used by the witnesses -/

/-- A concrete credential definition. -/
def wDef : BadgeDef :=
  { id := 1, uuid := "tpl-1", orgUuid := "org-1", name := "Badge One",
    createdFmt := "2024-01-01 00:00:00 +0000", apiConfigId := 5 }

/-- A concrete environment whose provider calls succeed. -/
def wEnv : Env :=
  { defs := fun _ n => if n = 1 then some wDef else none
    users := fun u =>
      { email := "u@example.com", first_name := "", last_name := "",
        username := u, full_name := "" }
    nowFmt := "2024-02-01 00:00:00 +0000"
    credlyIssue := fun _ _ => some { id := "ext-1", state := "accepted" }
    credlyRevoke := fun _ _ _ => some "revoked"
    accredibleIssue := fun _ _ => some 42
    accredibleRevoke := fun _ _ _ => true }

/-- A concrete environment whose provider issue calls fail
(`BadgeProviderError`). -/
def wEnvFail : Env :=
  { wEnv with
    credlyIssue := fun _ _ => none
    accredibleIssue := fun _ _ => none }

/-- A fresh, not-yet-propagated Credly row for badge 1 and user "alice". -/
def wRecCredly : UserCred :=
  { pk := 0, ctype := .credlyBadge, username := "alice",
    credentialContentType := .credlyBadgeTemplate, credentialId := 1,
    status := STATUS_AWARDED, state := STATE_CREATED, externalUuid := none,
    externalId := none, createdFmt := "2024-02-01 00:00:00 +0000",
    attributes := none, dateOverride := none }

/-- A fresh, not-yet-propagated Accredible row for group 1 and "alice". -/
def wRecAccredible : UserCred :=
  { wRecCredly with
    ctype := .accredibleBadge
    credentialContentType := .accredibleGroup }

/-- The store after a Credly award of badge 1 to "alice" followed by a
revoke of it, both provider calls succeeding. -/
def wStoreRevoked : Store :=
  (revoke .credly wEnv (award .credly wEnv [] "alice" 1).store 1 "alice").store

/-- The single row of `wStoreRevoked`: revoked locally, in the provider's
terminal "revoked" state, propagated. -/
def wRecRevoked : UserCred :=
  { pk := 0, ctype := .credlyBadge, username := "alice",
    credentialContentType := .credlyBadgeTemplate, credentialId := 1,
    status := STATUS_REVOKED, state := "revoked",
    externalUuid := some "ext-1", externalId := none,
    createdFmt := "2024-02-01 00:00:00 +0000", attributes := none,
    dateOverride := none }

/-! ## The claims -/

/-- **C1**: for the Credly and Accredible issuers (those with an entry in
`REVOCATION_STATES`), if an existing row's `state` equals the provider's
terminal revoked/expired constant, a subsequent `award` for the same
`(username, credential definition)` completes without raising (outcome is
`ok`), leaves the store — in particular the row's `status` — unchanged, and
makes no provider call. (Stores are restricted to those the operations can
produce, where a terminal-state row is always `propagated`.) -/
theorem award_preserves_terminal_status (k : IssuerKind) (env : Env)
    (store : Store) (username : String) (cid : Nat) (uc : UserCred)
    (cred : BadgeDef)
    (hk : k = IssuerKind.credly ∨ k = IssuerKind.accredible)
    (hreach : Reachable store)
    (hfind : findCred store k username cid = some uc)
    (hterm : REVOCATION_STATES k.userCredType = some uc.state)
    (hd : get_credential k env cid = some cred) (hid : cred.id = cid) :
    award k env store username cid =
      Outcome.ok ⟨store, [Notif.awarded uc], 0, 0⟩ uc := by
  subst hid
  have hguard : stateEqualsRevocation k uc = true := by
    simp [stateEqualsRevocation, hterm]
  have hic : issue_credential k env store cred username STATUS_AWARDED =
      (store, uc) := by
    rw [issue_credential_found k env store cred username STATUS_AWARDED uc
      hfind, if_pos hguard]
  have hbase : base_award k env store username cred.id =
      Outcome.ok ⟨store, [Notif.awarded uc], 0, 0⟩ uc := by
    rw [base_award_of_credential k env store username cred.id cred hd, hic]
  have hfacts := key_facts_of_findCred_some hfind
  have hterm' : recTerminal uc = true := by
    unfold recTerminal
    rw [hfacts.2.1, hterm]
    simp
  have hp : uc.propagated = true := reachable_storeInv hreach uc hfacts.1 hterm'
  rcases hk with hk | hk <;> subst hk
  · simp only [award, credly_award, hbase, hp, Bool.not_true,
      Bool.false_eq_true, if_false]
  · simp only [award, accredible_award, hbase, hp, Bool.not_true,
      Bool.false_eq_true, if_false]

/-- Witness for C1: after awarding and then revoking badge 1 to "alice"
against a Credly provider that reports terminal state "revoked", a second
`award` returns `ok` and changes nothing. -/
theorem award_preserves_terminal_status_witness :
    award .credly wEnv wStoreRevoked "alice" 1 =
      Outcome.ok ⟨wStoreRevoked, [Notif.awarded wRecRevoked], 0, 0⟩
        wRecRevoked :=
  award_preserves_terminal_status .credly wEnv wStoreRevoked "alice" 1
    wRecRevoked wDef (Or.inl rfl)
    (Reachable.step_revoke .credly wEnv (award .credly wEnv [] "alice" 1).store
      1 "alice"
      (Reachable.step_award .credly wEnv [] "alice" 1 Reachable.empty))
    (by decide) (by decide) (by decide) (by decide)

/-- **C5**: on a successful Credly issue call, `issue_credly_badge` copies
the response's `data.id` into `external_uuid` and `data.state` into
`state`, and persists the row. -/
theorem credly_issue_copies_response (env : Env) (store : Store)
    (uc : UserCred) (resp : CredlyIssueResp)
    (hdef : (env.defs DefType.credlyBadgeTemplate uc.credentialId).isSome)
    (hresp : ∀ org pd, env.credlyIssue org pd = some resp) :
    issue_credly_badge env store uc =
      ExtResult.ok
        (saveCred store
          { uc with externalUuid := some resp.id, state := resp.state })
        { uc with externalUuid := some resp.id, state := resp.state } := by
  rcases Option.isSome_iff_exists.mp hdef with ⟨bt, hbt⟩
  simp only [issue_credly_badge, hbt, hresp]

/-- Witness for C5: with the mocked response
`{"data": {"id": "ext-1", "state": "accepted"}}`, the row ends with
`external_uuid == "ext-1"` and `state == "accepted"`. -/
theorem credly_issue_copies_response_witness :
    issue_credly_badge wEnv [wRecCredly] wRecCredly =
      ExtResult.ok
        (saveCred [wRecCredly]
          { wRecCredly with
            externalUuid := some "ext-1"
            state := "accepted" })
        { wRecCredly with
          externalUuid := some "ext-1"
          state := "accepted" } ∧
      ({ wRecCredly with
        externalUuid := some "ext-1"
        state := "accepted" } : UserCred).externalUuid = some "ext-1" :=
  ⟨credly_issue_copies_response wEnv [wRecCredly] wRecCredly
    { id := "ext-1", state := "accepted" } (by decide) (fun _ _ => rfl), rfl⟩

/-- **C6**: the Accredible issuer forces fixed `state` constants: on a
successful issue the row's `state` becomes the fixed accepted constant
(only the external id is taken from the response), and on a successful
revoke the row's `state` becomes the fixed expired constant; both are
persisted. -/
theorem accredible_fixed_lifecycle_states (env : Env) (s1 s2 : Store)
    (uc1 uc2 : UserCred) (cid : Nat) (i : Nat)
    (hd1 : (env.defs DefType.accredibleGroup uc1.credentialId).isSome)
    (hiss : ∀ a pd, env.accredibleIssue a pd = some i)
    (hd2 : (env.defs DefType.accredibleGroup cid).isSome)
    (hrev : ∀ a x pd, env.accredibleRevoke a x pd = true) :
    issue_accredible_badge env s1 uc1 =
      ExtResult.ok
        (saveCred s1
          { uc1 with
            externalId := some i
            state := ACCREDIBLE_STATE_ACCEPTED })
        { uc1 with
          externalId := some i
          state := ACCREDIBLE_STATE_ACCEPTED } ∧
    revoke_accredible_badge env s2 cid uc2 =
      ExtResult.ok
        (saveCred s2 { uc2 with state := ACCREDIBLE_STATE_EXPIRED })
        { uc2 with state := ACCREDIBLE_STATE_EXPIRED } := by
  constructor
  · rcases Option.isSome_iff_exists.mp hd1 with ⟨g, hg⟩
    simp only [issue_accredible_badge, hg, hiss]
  · rcases Option.isSome_iff_exists.mp hd2 with ⟨g, hg⟩
    simp only [revoke_accredible_badge, hg, hrev, if_true]

/-- Witness for C6 at a concrete Accredible row and environment. -/
theorem accredible_fixed_lifecycle_states_witness :
    issue_accredible_badge wEnv [wRecAccredible] wRecAccredible =
      ExtResult.ok
        (saveCred [wRecAccredible]
          { wRecAccredible with
            externalId := some 42
            state := ACCREDIBLE_STATE_ACCEPTED })
        { wRecAccredible with
          externalId := some 42
          state := ACCREDIBLE_STATE_ACCEPTED } ∧
    revoke_accredible_badge wEnv [wRecAccredible] 1 wRecAccredible =
      ExtResult.ok
        (saveCred [wRecAccredible]
          { wRecAccredible with state := ACCREDIBLE_STATE_EXPIRED })
        { wRecAccredible with state := ACCREDIBLE_STATE_EXPIRED } :=
  accredible_fixed_lifecycle_states wEnv [wRecAccredible] [wRecAccredible]
    wRecAccredible wRecAccredible 1 42 (by decide) (fun _ _ => rfl)
    (by decide) (fun _ _ _ => rfl)

/-- **C9**: for the base `BadgeTemplateIssuer` (user-credential type
`UserCredential`), the `REVOCATION_STATES` lookup yields `None`, the guard
comparison of any row's `state` against it is always false, and
`issue_credential` always overwrites `status` with the requested value. -/
theorem base_issuer_always_overwrites_status (env : Env) (store : Store)
    (cred : BadgeDef) (username status : String) (r : UserCred) :
    REVOCATION_STATES IssuerKind.base.userCredType = none ∧
      stateEqualsRevocation .base r = false ∧
      (issue_credential .base env store cred username status).2.status =
        status := by
  refine ⟨rfl, rfl, ?_⟩
  rcases hf : findCred store .base username cred.id with _ | uc
  · rw [issue_credential_create .base env store cred username status hf]
    rfl
  · rw [issue_credential_found .base env store cred username status uc hf,
      if_neg (by simp [show stateEqualsRevocation .base uc = false from rfl])]

/-- **C10**: `revoke` for a pair with no existing row does not fail: the
get-or-create creates the row with status REVOKED as the creation default,
the "revoked" notification is emitted, no provider call is made, and the
new row is returned. -/
theorem revoke_creates_missing_record (k : IssuerKind) (env : Env)
    (store : Store) (username : String) (cid : Nat) (cred : BadgeDef)
    (h0 : findCred store k username cid = none)
    (hd : get_credential k env cid = some cred) (hid : cred.id = cid) :
    revoke k env store cid username =
      Outcome.ok
        ⟨store ++ [newRec k env store username cid STATUS_REVOKED],
          [Notif.revoked (newRec k env store username cid STATUS_REVOKED)],
          0, 0⟩
        (newRec k env store username cid STATUS_REVOKED) ∧
      (newRec k env store username cid STATUS_REVOKED).status =
        STATUS_REVOKED := by
  subst hid
  have hic := issue_credential_create k env store cred username STATUS_REVOKED h0
  have hbase : base_revoke k env store cred.id username =
      Outcome.ok
        ⟨store ++ [newRec k env store username cred.id STATUS_REVOKED],
          [Notif.revoked (newRec k env store username cred.id STATUS_REVOKED)],
          0, 0⟩
        (newRec k env store username cred.id STATUS_REVOKED) := by
    rw [base_revoke_of_credential k env store username cred.id cred hd, hic]
  refine ⟨?_, rfl⟩
  cases k
  · exact hbase
  · simp only [revoke, credly_revoke, hbase, propagated_newRec,
      Bool.false_eq_true, if_false]
  · simp only [revoke, accredible_revoke, hbase, propagated_newRec,
      Bool.false_eq_true, if_false]

/-- Witness for C10: revoking badge 1 for "bob", who has no record, against
the base issuer. -/
theorem revoke_creates_missing_record_witness :
    revoke .base wEnv [] 1 "bob" =
      Outcome.ok
        ⟨[newRec .base wEnv [] "bob" 1 STATUS_REVOKED],
          [Notif.revoked (newRec .base wEnv [] "bob" 1 STATUS_REVOKED)],
          0, 0⟩
        (newRec .base wEnv [] "bob" 1 STATUS_REVOKED) ∧
      (newRec .base wEnv [] "bob" 1 STATUS_REVOKED).status = STATUS_REVOKED :=
  revoke_creates_missing_record .base wEnv [] "bob" 1 wDef rfl (by decide) rfl

/-- **C7**: `revoke` after `award` on the same `(username, credential
definition)` pair sets `status == REVOKED` on the very row `award` created
(same primary key, no new row — the pair still has exactly one row), emits
the "revoked" notification, and returns that row. -/
theorem revoke_after_award_same_record (env1 env2 : Env) (store : Store)
    (username : String) (cid : Nat) (cred1 cred2 : BadgeDef)
    (h0 : findCred store .base username cid = none)
    (hd1 : get_credential .base env1 cid = some cred1) (hi1 : cred1.id = cid)
    (hd2 : get_credential .base env2 cid = some cred2) (hi2 : cred2.id = cid) :
    ∃ rec1 : UserCred,
      award .base env1 store username cid =
        Outcome.ok ⟨store ++ [rec1], [Notif.awarded rec1], 0, 0⟩ rec1 ∧
      revoke .base env2 (store ++ [rec1]) cid username =
        Outcome.ok
          ⟨store ++ [{ rec1 with status := STATUS_REVOKED }],
            [Notif.revoked { rec1 with status := STATUS_REVOKED }], 0, 0⟩
          { rec1 with status := STATUS_REVOKED } ∧
      countKey (store ++ [{ rec1 with status := STATUS_REVOKED }]) .base
        username cid = 1 := by
  subst hi1
  refine ⟨newRec .base env1 store username cred1.id STATUS_AWARDED, ?_, ?_, ?_⟩
  · have hic1 :=
      issue_credential_create .base env1 store cred1 username STATUS_AWARDED h0
    show base_award .base env1 store username cred1.id = _
    rw [base_award_of_credential .base env1 store username cred1.id cred1 hd1,
      hic1]
  · have hfind1 : findCred
        (store ++ [newRec .base env1 store username cred1.id STATUS_AWARDED])
        .base username cred2.id =
        some (newRec .base env1 store username cred1.id STATUS_AWARDED) := by
      rw [hi2]
      exact findCred_append_match h0 (credKeyMatches_newRec _ _ _ _ _ _)
    have hic2 := issue_credential_found .base env2
      (store ++ [newRec .base env1 store username cred1.id STATUS_AWARDED])
      cred2 username STATUS_REVOKED
      (newRec .base env1 store username cred1.id STATUS_AWARDED) hfind1
    rw [if_neg (by simp [show stateEqualsRevocation .base
      (newRec .base env1 store username cred1.id STATUS_AWARDED) = false
      from rfl])] at hic2
    have hsave : saveCred
        (store ++ [newRec .base env1 store username cred1.id STATUS_AWARDED])
        { newRec .base env1 store username cred1.id STATUS_AWARDED with
          status := STATUS_REVOKED } =
        store ++ [{ newRec .base env1 store username cred1.id STATUS_AWARDED
          with status := STATUS_REVOKED }] :=
      saveCred_append_fresh (fun x hx => pk_ne_freshPk hx) rfl
    rw [hsave] at hic2
    show base_revoke .base env2 _ cred1.id username = _
    rw [base_revoke_of_credential .base env2
      (store ++ [newRec .base env1 store username cred1.id STATUS_AWARDED])
      username cred1.id cred2 hd2, hic2]
  · rw [countKey_append, countKey_eq_zero h0]
    have hkey : credKeyMatches .base username cred1.id
        { newRec .base env1 store username cred1.id STATUS_AWARDED with
          status := STATUS_REVOKED } = true :=
      credKeyMatches_newRec .base env1 store username cred1.id STATUS_AWARDED
    simp [hkey]

/-- Witness for C7: "alice" is awarded then revoked badge 1 against the
base issuer starting from the empty store. -/
theorem revoke_after_award_same_record_witness :
    ∃ rec1 : UserCred,
      award .base wEnv [] "alice" 1 =
        Outcome.ok ⟨[] ++ [rec1], [Notif.awarded rec1], 0, 0⟩ rec1 ∧
      revoke .base wEnv ([] ++ [rec1]) 1 "alice" =
        Outcome.ok
          ⟨[] ++ [{ rec1 with status := STATUS_REVOKED }],
            [Notif.revoked { rec1 with status := STATUS_REVOKED }], 0, 0⟩
          { rec1 with status := STATUS_REVOKED } ∧
      countKey ([] ++ [{ rec1 with status := STATUS_REVOKED }]) .base
        "alice" 1 = 1 :=
  revoke_after_award_same_record wEnv wEnv [] "alice" 1 wDef wDef rfl
    (by decide) rfl (by decide) rfl

/-- The provider's issue operation raises `BadgeProviderError` for the
given issuer's provider, whatever the payload. -/
def providerIssueFails (k : IssuerKind) (env : Env) : Prop :=
  match k with
  | .credly => ∀ org pd, env.credlyIssue org pd = none
  | .accredible => ∀ a pd, env.accredibleIssue a pd = none
  | .base => True

/-- **C3**: when the provider's issue call raises `BadgeProviderError`
during a Credly or Accredible `award` of a fresh pair, the row is persisted
with `state = "error"`, its `status` remains the AWARDED the base step set,
the error propagates to the caller (`providerError` outcome), and the
"awarded" notification was already emitted before the provider call. -/
theorem provider_error_during_award (k : IssuerKind) (env : Env)
    (store : Store) (username : String) (cid : Nat) (cred : BadgeDef)
    (hk : k = IssuerKind.credly ∨ k = IssuerKind.accredible)
    (h0 : findCred store k username cid = none)
    (hd : get_credential k env cid = some cred) (hid : cred.id = cid)
    (hfail : providerIssueFails k env) :
    award k env store username cid =
      Outcome.providerError
        ⟨store ++
            [{ newRec k env store username cid STATUS_AWARDED with
              state := "error" }],
          [Notif.awarded (newRec k env store username cid STATUS_AWARDED)],
          1, 0⟩ ∧
      ({ newRec k env store username cid STATUS_AWARDED with
        state := "error" } : UserCred).status = STATUS_AWARDED := by
  subst hid
  have hic :=
    issue_credential_create k env store cred username STATUS_AWARDED h0
  have hbase : base_award k env store username cred.id =
      Outcome.ok
        ⟨store ++ [newRec k env store username cred.id STATUS_AWARDED],
          [Notif.awarded (newRec k env store username cred.id STATUS_AWARDED)],
          0, 0⟩
        (newRec k env store username cred.id STATUS_AWARDED) := by
    rw [base_award_of_credential k env store username cred.id cred hd, hic]
  have hsave : saveCred
      (store ++ [newRec k env store username cred.id STATUS_AWARDED])
      { newRec k env store username cred.id STATUS_AWARDED with
        state := "error" } =
      store ++ [{ newRec k env store username cred.id STATUS_AWARDED with
        state := "error" }] :=
    saveCred_append_fresh (fun x hx => pk_ne_freshPk hx) rfl
  refine ⟨?_, rfl⟩
  rcases hk with hk | hk <;> subst hk
  · have hd' : env.defs DefType.credlyBadgeTemplate
        (newRec .credly env store username cred.id
          STATUS_AWARDED).credentialId = some cred := hd
    have hfail' : ∀ org pd, env.credlyIssue org pd = none := hfail
    have hext : issue_credly_badge env
        (store ++ [newRec .credly env store username cred.id STATUS_AWARDED])
        (newRec .credly env store username cred.id STATUS_AWARDED) =
        ExtResult.fail
          (store ++ [{ newRec .credly env store username cred.id
            STATUS_AWARDED with state := "error" }])
          { newRec .credly env store username cred.id STATUS_AWARDED with
            state := "error" } := by
      simp only [issue_credly_badge, hd', hfail']
      rw [hsave]
    simp only [award, credly_award, hbase, propagated_newRec, Bool.not_false,
      if_true, hext]
  · have hd' : env.defs DefType.accredibleGroup
        (newRec .accredible env store username cred.id
          STATUS_AWARDED).credentialId = some cred := hd
    have hfail' : ∀ a pd, env.accredibleIssue a pd = none := hfail
    have hext : issue_accredible_badge env
        (store ++
          [newRec .accredible env store username cred.id STATUS_AWARDED])
        (newRec .accredible env store username cred.id STATUS_AWARDED) =
        ExtResult.fail
          (store ++ [{ newRec .accredible env store username cred.id
            STATUS_AWARDED with state := "error" }])
          { newRec .accredible env store username cred.id STATUS_AWARDED with
            state := "error" } := by
      simp only [issue_accredible_badge, hd', hfail']
      rw [hsave]
    simp only [award, accredible_award, hbase, propagated_newRec,
      Bool.not_false, if_true, hext]

/-- Witness for C3: a fresh Credly award of badge 1 to "alice" against a
provider whose issue call always fails. -/
theorem provider_error_during_award_witness :
    award .credly wEnvFail [] "alice" 1 =
      Outcome.providerError
        ⟨[] ++ [{ newRec .credly wEnvFail [] "alice" 1 STATUS_AWARDED with
            state := "error" }],
          [Notif.awarded (newRec .credly wEnvFail [] "alice" 1
            STATUS_AWARDED)],
          1, 0⟩ ∧
      ({ newRec .credly wEnvFail [] "alice" 1 STATUS_AWARDED with
        state := "error" } : UserCred).status = STATUS_AWARDED :=
  provider_error_during_award .credly wEnvFail [] "alice" 1 wDef
    (Or.inl rfl) rfl (by decide) rfl (fun _ _ => rfl)

theorem credly_award_issueCalls (env : Env) (store : Store)
    (username : String) (cid : Nat) (cred : BadgeDef) (uc : UserCred)
    (hf : findCred store .credly username cid = some uc)
    (hd : get_credential .credly env cid = some cred) (hid : cred.id = cid) :
    (credly_award env store username cid).issueCalls =
      if uc.propagated then 0 else 1 := by
  subst hid
  have hfacts := key_facts_of_findCred_some hf
  have hff := issue_credential_found_facts .credly env store cred username
    STATUS_AWARDED uc hf
  have hbase := base_award_of_credential .credly env store username cred.id
    cred hd
  by_cases hp : uc.propagated
  · rw [if_pos hp]
    have hprop : (issue_credential .credly env store cred username
        STATUS_AWARDED).2.propagated = true := by
      rw [hff.1]; exact hp
    simp [credly_award, hbase, hprop, Outcome.issueCalls]
  · have hp' : uc.propagated = false := by simpa using hp
    rw [if_neg hp]
    have hprop : (issue_credential .credly env store cred username
        STATUS_AWARDED).2.propagated = false := by
      rw [hff.1]; exact hp'
    have hd2 : env.defs DefType.credlyBadgeTemplate
        (issue_credential .credly env store cred username
          STATUS_AWARDED).2.credentialId = some cred := by
      rw [hff.2, hfacts.2.2.2.2]; exact hd
    rcases issue_credly_badge_calls env
        (issue_credential .credly env store cred username STATUS_AWARDED).1
        (issue_credential .credly env store cred username STATUS_AWARDED).2
        cred hd2 with ⟨s', r', hok⟩ | ⟨s', r', hfl⟩
    · simp [credly_award, hbase, hprop, hok, Outcome.issueCalls]
    · simp [credly_award, hbase, hprop, hfl, Outcome.issueCalls]

theorem accredible_award_issueCalls (env : Env) (store : Store)
    (username : String) (cid : Nat) (cred : BadgeDef) (uc : UserCred)
    (hf : findCred store .accredible username cid = some uc)
    (hd : get_credential .accredible env cid = some cred)
    (hid : cred.id = cid) :
    (accredible_award env store username cid).issueCalls =
      if uc.propagated then 0 else 1 := by
  subst hid
  have hfacts := key_facts_of_findCred_some hf
  have hff := issue_credential_found_facts .accredible env store cred username
    STATUS_AWARDED uc hf
  have hbase := base_award_of_credential .accredible env store username
    cred.id cred hd
  by_cases hp : uc.propagated
  · rw [if_pos hp]
    have hprop : (issue_credential .accredible env store cred username
        STATUS_AWARDED).2.propagated = true := by
      rw [hff.1]; exact hp
    simp [accredible_award, hbase, hprop, Outcome.issueCalls]
  · have hp' : uc.propagated = false := by simpa using hp
    rw [if_neg hp]
    have hprop : (issue_credential .accredible env store cred username
        STATUS_AWARDED).2.propagated = false := by
      rw [hff.1]; exact hp'
    have hd2 : env.defs DefType.accredibleGroup
        (issue_credential .accredible env store cred username
          STATUS_AWARDED).2.credentialId = some cred := by
      rw [hff.2, hfacts.2.2.2.2]; exact hd
    rcases issue_accredible_badge_calls env
        (issue_credential .accredible env store cred username
          STATUS_AWARDED).1
        (issue_credential .accredible env store cred username
          STATUS_AWARDED).2
        cred hd2 with ⟨s', r', hok⟩ | ⟨s', r', hfl⟩
    · simp [accredible_award, hbase, hprop, hok, Outcome.issueCalls]
    · simp [accredible_award, hbase, hprop, hfl, Outcome.issueCalls]

theorem credly_revoke_revokeCalls (env : Env) (store : Store) (cid : Nat)
    (username : String) (cred : BadgeDef) (uc : UserCred)
    (hf : findCred store .credly username cid = some uc)
    (hd : get_credential .credly env cid = some cred) (hid : cred.id = cid) :
    (credly_revoke env store cid username).revokeCalls =
      if uc.propagated then 1 else 0 := by
  subst hid
  have hff := issue_credential_found_facts .credly env store cred username
    STATUS_REVOKED uc hf
  have hbase := base_revoke_of_credential .credly env store username cred.id
    cred hd
  by_cases hp : uc.propagated
  · rw [if_pos hp]
    have hprop : (issue_credential .credly env store cred username
        STATUS_REVOKED).2.propagated = true := by
      rw [hff.1]; exact hp
    rcases revoke_credly_badge_calls env
        (issue_credential .credly env store cred username STATUS_REVOKED).1
        cred.id
        (issue_credential .credly env store cred username STATUS_REVOKED).2
        cred hd with ⟨s', r', hok⟩ | ⟨s', r', hfl⟩
    · simp [credly_revoke, hbase, hprop, hok, Outcome.revokeCalls]
    · simp [credly_revoke, hbase, hprop, hfl, Outcome.revokeCalls]
  · have hp' : uc.propagated = false := by simpa using hp
    rw [if_neg hp]
    have hprop : (issue_credential .credly env store cred username
        STATUS_REVOKED).2.propagated = false := by
      rw [hff.1]; exact hp'
    simp [credly_revoke, hbase, hprop, Outcome.revokeCalls]

theorem accredible_revoke_revokeCalls (env : Env) (store : Store) (cid : Nat)
    (username : String) (cred : BadgeDef) (uc : UserCred)
    (hf : findCred store .accredible username cid = some uc)
    (hd : get_credential .accredible env cid = some cred)
    (hid : cred.id = cid) :
    (accredible_revoke env store cid username).revokeCalls =
      if uc.propagated then 1 else 0 := by
  subst hid
  have hff := issue_credential_found_facts .accredible env store cred username
    STATUS_REVOKED uc hf
  have hbase := base_revoke_of_credential .accredible env store username
    cred.id cred hd
  by_cases hp : uc.propagated
  · rw [if_pos hp]
    have hprop : (issue_credential .accredible env store cred username
        STATUS_REVOKED).2.propagated = true := by
      rw [hff.1]; exact hp
    rcases revoke_accredible_badge_calls env
        (issue_credential .accredible env store cred username
          STATUS_REVOKED).1
        cred.id
        (issue_credential .accredible env store cred username
          STATUS_REVOKED).2
        cred hd with ⟨s', r', hok⟩ | ⟨s', r', hfl⟩
    · simp [accredible_revoke, hbase, hprop, hok, Outcome.revokeCalls]
    · simp [accredible_revoke, hbase, hprop, hfl, Outcome.revokeCalls]
  · have hp' : uc.propagated = false := by simpa using hp
    rw [if_neg hp]
    have hprop : (issue_credential .accredible env store cred username
        STATUS_REVOKED).2.propagated = false := by
      rw [hff.1]; exact hp'
    simp [accredible_revoke, hbase, hprop, Outcome.revokeCalls]

/-- **C4**: the `propagated` flag gates the provider calls of the
subclasses: an `award` with the row not `propagated` makes exactly one
external issue call, an `award` with it `propagated` makes zero; a `revoke`
makes the external revoke call iff the row is `propagated`. -/
theorem propagated_gates_provider_calls (k : IssuerKind) (env : Env)
    (store : Store) (username : String) (cid : Nat) (cred : BadgeDef)
    (uc : UserCred)
    (hk : k = IssuerKind.credly ∨ k = IssuerKind.accredible)
    (hf : findCred store k username cid = some uc)
    (hd : get_credential k env cid = some cred) (hid : cred.id = cid) :
    (uc.propagated = false →
      (award k env store username cid).issueCalls = 1) ∧
    (uc.propagated = true →
      (award k env store username cid).issueCalls = 0) ∧
    ((revoke k env store cid username).revokeCalls = 1 ↔
      uc.propagated = true) := by
  rcases hk with hk | hk <;> subst hk
  · have ha := credly_award_issueCalls env store username cid cred uc hf hd hid
    have hr := credly_revoke_revokeCalls env store cid username cred uc hf hd
      hid
    refine ⟨fun hp => by rw [show award .credly = credly_award from rfl, ha,
        if_neg (by simp [hp])],
      fun hp => by rw [show award .credly = credly_award from rfl, ha,
        if_pos hp], ?_⟩
    rw [show revoke .credly = credly_revoke from rfl, hr]
    by_cases hp : uc.propagated
    · simp [hp]
    · simp [hp]
  · have ha := accredible_award_issueCalls env store username cid cred uc hf
      hd hid
    have hr := accredible_revoke_revokeCalls env store cid username cred uc hf
      hd hid
    refine ⟨fun hp => by rw [show award .accredible = accredible_award from
        rfl, ha, if_neg (by simp [hp])],
      fun hp => by rw [show award .accredible = accredible_award from rfl, ha,
        if_pos hp], ?_⟩
    rw [show revoke .accredible = accredible_revoke from rfl, hr]
    by_cases hp : uc.propagated
    · simp [hp]
    · simp [hp]

/-- Witness for C4 at a fresh (not propagated) Credly row. -/
theorem propagated_gates_provider_calls_witness :
    (wRecCredly.propagated = false →
      (award .credly wEnv [wRecCredly] "alice" 1).issueCalls = 1) ∧
    (wRecCredly.propagated = true →
      (award .credly wEnv [wRecCredly] "alice" 1).issueCalls = 0) ∧
    ((revoke .credly wEnv [wRecCredly] 1 "alice").revokeCalls = 1 ↔
      wRecCredly.propagated = true) :=
  propagated_gates_provider_calls .credly wEnv [wRecCredly] "alice" 1 wDef
    wRecCredly (Or.inl rfl) (by decide) (by decide) rfl

theorem award_fresh_store (k : IssuerKind) (env : Env) (store : Store)
    (username : String) (cid : Nat) (cred : BadgeDef)
    (h0 : findCred store k username cid = none)
    (hd : get_credential k env cid = some cred) (hid : cred.id = cid) :
    ∃ rec : UserCred,
      (award k env store username cid).store = store ++ [rec] ∧
      credKeyMatches k username cid rec = true ∧
      rec.status = STATUS_AWARDED ∧ rec.pk = freshPk store := by
  subst hid
  have hic :=
    issue_credential_create k env store cred username STATUS_AWARDED h0
  have hbase : base_award k env store username cred.id =
      Outcome.ok
        ⟨store ++ [newRec k env store username cred.id STATUS_AWARDED],
          [Notif.awarded (newRec k env store username cred.id STATUS_AWARDED)],
          0, 0⟩
        (newRec k env store username cred.id STATUS_AWARDED) := by
    rw [base_award_of_credential k env store username cred.id cred hd, hic]
  cases k
  · refine ⟨newRec .base env store username cred.id STATUS_AWARDED,
      ?_, ?_, rfl, rfl⟩
    · simp only [award, hbase, Outcome.store]
    · exact credKeyMatches_newRec _ _ _ _ _ _
  · rcases issue_credly_badge_cases env
        (store ++ [newRec .credly env store username cred.id STATUS_AWARDED])
        (newRec .credly env store username cred.id STATUS_AWARDED) with
      hm | ⟨i, st, hok⟩ | hfail
    · refine ⟨newRec .credly env store username cred.id STATUS_AWARDED,
        ?_, ?_, rfl, rfl⟩
      · simp only [award, credly_award, hbase, propagated_newRec,
          Bool.not_false, if_true, hm, Outcome.store]
      · exact credKeyMatches_newRec _ _ _ _ _ _
    · refine ⟨{ newRec .credly env store username cred.id STATUS_AWARDED with
          externalUuid := some i
          state := st }, ?_, ?_, rfl, rfl⟩
      · simp only [award, credly_award, hbase, propagated_newRec,
          Bool.not_false, if_true, hok, Outcome.store]
        exact saveCred_append_fresh (fun x hx => pk_ne_freshPk hx) rfl
      · exact credKeyMatches_newRec .credly env store username cred.id
          STATUS_AWARDED
    · refine ⟨{ newRec .credly env store username cred.id STATUS_AWARDED with
          state := "error" }, ?_, ?_, rfl, rfl⟩
      · simp only [award, credly_award, hbase, propagated_newRec,
          Bool.not_false, if_true, hfail, Outcome.store]
        exact saveCred_append_fresh (fun x hx => pk_ne_freshPk hx) rfl
      · exact credKeyMatches_newRec .credly env store username cred.id
          STATUS_AWARDED
  · rcases issue_accredible_badge_cases env
        (store ++
          [newRec .accredible env store username cred.id STATUS_AWARDED])
        (newRec .accredible env store username cred.id STATUS_AWARDED) with
      hm | ⟨i, hok⟩ | hfail
    · refine ⟨newRec .accredible env store username cred.id STATUS_AWARDED,
        ?_, ?_, rfl, rfl⟩
      · simp only [award, accredible_award, hbase, propagated_newRec,
          Bool.not_false, if_true, hm, Outcome.store]
      · exact credKeyMatches_newRec _ _ _ _ _ _
    · refine ⟨{ newRec .accredible env store username cred.id STATUS_AWARDED
          with
          externalId := some i
          state := ACCREDIBLE_STATE_ACCEPTED }, ?_, ?_, rfl, rfl⟩
      · simp only [award, accredible_award, hbase, propagated_newRec,
          Bool.not_false, if_true, hok, Outcome.store]
        exact saveCred_append_fresh (fun x hx => pk_ne_freshPk hx) rfl
      · exact credKeyMatches_newRec .accredible env store username cred.id
          STATUS_AWARDED
    · refine ⟨{ newRec .accredible env store username cred.id STATUS_AWARDED
          with state := "error" }, ?_, ?_, rfl, rfl⟩
      · simp only [award, accredible_award, hbase, propagated_newRec,
          Bool.not_false, if_true, hfail, Outcome.store]
        exact saveCred_append_fresh (fun x hx => pk_ne_freshPk hx) rfl
      · exact credKeyMatches_newRec .accredible env store username cred.id
          STATUS_AWARDED

theorem award_existing_store (k : IssuerKind) (env : Env) (store : Store)
    (username : String) (cid : Nat) (cred : BadgeDef) (uc : UserCred)
    (hf : findCred store k username cid = some uc)
    (hd : get_credential k env cid = some cred) (hid : cred.id = cid) :
    ∃ rec : UserCred,
      ((award k env store username cid).store = store ∨
        (award k env store username cid).store = saveCred store rec) ∧
      credKeyMatches k username cid rec = true ∧
      (rec.status = STATUS_AWARDED ∨ rec.status = uc.status) ∧
      rec.pk = uc.pk := by
  subst hid
  have hkey : credKeyMatches k username cred.id uc = true := List.find?_some hf
  have hic :=
    issue_credential_found k env store cred username STATUS_AWARDED uc hf
  by_cases hg : stateEqualsRevocation k uc
  · rw [if_pos hg] at hic
    have hbase : base_award k env store username cred.id =
        Outcome.ok ⟨store, [Notif.awarded uc], 0, 0⟩ uc := by
      rw [base_award_of_credential k env store username cred.id cred hd, hic]
    cases k
    · exact ⟨uc, Or.inl (by simp only [award, hbase, Outcome.store]), hkey,
        Or.inr rfl, rfl⟩
    · by_cases hp : uc.propagated
      · exact ⟨uc, Or.inl (by simp only [award, credly_award, hbase, hp,
          Bool.not_true, Bool.false_eq_true, if_false, Outcome.store]),
          hkey, Or.inr rfl, rfl⟩
      · have hp' : uc.propagated = false := by simpa using hp
        rcases issue_credly_badge_cases env store uc with
          hm | ⟨i, st, hok⟩ | hfail
        · exact ⟨uc, Or.inl (by simp only [award, credly_award, hbase, hp',
            Bool.not_false, if_true, hm, Outcome.store]), hkey,
            Or.inr rfl, rfl⟩
        · refine ⟨{ uc with externalUuid := some i, state := st },
            Or.inr ?_, ?_, Or.inr rfl, rfl⟩
          · simp only [award, credly_award, hbase, hp', Bool.not_false,
              if_true, hok, Outcome.store]
          · exact hkey
        · refine ⟨{ uc with state := "error" }, Or.inr ?_, ?_,
            Or.inr rfl, rfl⟩
          · simp only [award, credly_award, hbase, hp', Bool.not_false,
              if_true, hfail, Outcome.store]
          · exact hkey
    · by_cases hp : uc.propagated
      · exact ⟨uc, Or.inl (by simp only [award, accredible_award, hbase, hp,
          Bool.not_true, Bool.false_eq_true, if_false, Outcome.store]),
          hkey, Or.inr rfl, rfl⟩
      · have hp' : uc.propagated = false := by simpa using hp
        rcases issue_accredible_badge_cases env store uc with
          hm | ⟨i, hok⟩ | hfail
        · exact ⟨uc, Or.inl (by simp only [award, accredible_award, hbase,
            hp', Bool.not_false, if_true, hm, Outcome.store]), hkey,
            Or.inr rfl, rfl⟩
        · refine ⟨{ uc with externalId := some i, state := ACCREDIBLE_STATE_ACCEPTED }, Or.inr ?_, ?_,
            Or.inr rfl, rfl⟩
          · simp only [award, accredible_award, hbase, hp', Bool.not_false,
              if_true, hok, Outcome.store]
          · exact hkey
        · refine ⟨{ uc with state := "error" }, Or.inr ?_, ?_,
            Or.inr rfl, rfl⟩
          · simp only [award, accredible_award, hbase, hp', Bool.not_false,
              if_true, hfail, Outcome.store]
          · exact hkey
  · rw [if_neg hg] at hic
    have hbase : base_award k env store username cred.id =
        Outcome.ok
          ⟨saveCred store { uc with status := STATUS_AWARDED },
            [Notif.awarded { uc with status := STATUS_AWARDED }], 0, 0⟩
          { uc with status := STATUS_AWARDED } := by
      rw [base_award_of_credential k env store username cred.id cred hd, hic]
    cases k
    · exact ⟨{ uc with status := STATUS_AWARDED },
        Or.inr (by simp only [award, hbase, Outcome.store]), hkey,
        Or.inl rfl, rfl⟩
    · by_cases hp : uc.propagated
      · have hp1 : ({ uc with status := STATUS_AWARDED } :
            UserCred).propagated = true := hp
        exact ⟨{ uc with status := STATUS_AWARDED },
          Or.inr (by simp only [award, credly_award, hbase, hp1,
            Bool.not_true, Bool.false_eq_true, if_false, Outcome.store]),
          hkey, Or.inl rfl, rfl⟩
      · have hp1 : ({ uc with status := STATUS_AWARDED } :
            UserCred).propagated = false := by simpa using hp
        rcases issue_credly_badge_cases env
            (saveCred store { uc with status := STATUS_AWARDED })
            { uc with status := STATUS_AWARDED } with
          hm | ⟨i, st, hok⟩ | hfail
        · exact ⟨{ uc with status := STATUS_AWARDED },
            Or.inr (by simp only [award, credly_award, hbase, hp1,
              Bool.not_false, if_true, hm, Outcome.store]), hkey,
            Or.inl rfl, rfl⟩
        · refine ⟨{ ({ uc with status := STATUS_AWARDED } : UserCred) with
            externalUuid := some i, state := st }, Or.inr ?_, ?_,
            Or.inl rfl, rfl⟩
          · simp only [award, credly_award, hbase, hp1, Bool.not_false,
              if_true, hok, Outcome.store]
            exact saveCred_saveCred rfl
          · exact hkey
        · refine ⟨{ ({ uc with status := STATUS_AWARDED } : UserCred) with
            state := "error" }, Or.inr ?_, ?_, Or.inl rfl, rfl⟩
          · simp only [award, credly_award, hbase, hp1, Bool.not_false,
              if_true, hfail, Outcome.store]
            exact saveCred_saveCred rfl
          · exact hkey
    · by_cases hp : uc.propagated
      · have hp1 : ({ uc with status := STATUS_AWARDED } :
            UserCred).propagated = true := hp
        exact ⟨{ uc with status := STATUS_AWARDED },
          Or.inr (by simp only [award, accredible_award, hbase, hp1,
            Bool.not_true, Bool.false_eq_true, if_false, Outcome.store]),
          hkey, Or.inl rfl, rfl⟩
      · have hp1 : ({ uc with status := STATUS_AWARDED } :
            UserCred).propagated = false := by simpa using hp
        rcases issue_accredible_badge_cases env
            (saveCred store { uc with status := STATUS_AWARDED })
            { uc with status := STATUS_AWARDED } with
          hm | ⟨i, hok⟩ | hfail
        · exact ⟨{ uc with status := STATUS_AWARDED },
            Or.inr (by simp only [award, accredible_award, hbase, hp1,
              Bool.not_false, if_true, hm, Outcome.store]), hkey,
            Or.inl rfl, rfl⟩
        · refine ⟨{ ({ uc with status := STATUS_AWARDED } : UserCred) with
            externalId := some i, state := ACCREDIBLE_STATE_ACCEPTED },
            Or.inr ?_, ?_, Or.inl rfl, rfl⟩
          · simp only [award, accredible_award, hbase, hp1, Bool.not_false,
              if_true, hok, Outcome.store]
            exact saveCred_saveCred rfl
          · exact hkey
        · refine ⟨{ ({ uc with status := STATUS_AWARDED } : UserCred) with
            state := "error" }, Or.inr ?_, ?_, Or.inl rfl, rfl⟩
          · simp only [award, accredible_award, hbase, hp1, Bool.not_false,
              if_true, hfail, Outcome.store]
            exact saveCred_saveCred rfl
          · exact hkey

/-- **C2**: awarding the same `(username, credential definition)` pair
twice — whatever the provider outcomes — leaves exactly one row for that
pair, with `status == AWARDED`; the second call updates the row found by
the composite key (get-or-create) instead of creating a second one. -/
theorem award_twice_one_record (k : IssuerKind) (env1 env2 : Env)
    (store : Store) (username : String) (cid : Nat) (cred1 cred2 : BadgeDef)
    (h0 : findCred store k username cid = none)
    (hd1 : get_credential k env1 cid = some cred1) (hi1 : cred1.id = cid)
    (hd2 : get_credential k env2 cid = some cred2) (hi2 : cred2.id = cid) :
    ∃ rec : UserCred,
      findCred (award k env2 (award k env1 store username cid).store username
        cid).store k username cid = some rec ∧
      rec.status = STATUS_AWARDED ∧
      countKey (award k env2 (award k env1 store username cid).store username
        cid).store k username cid = 1 := by
  obtain ⟨rec1, hs1, hkey1, hst1, hpk1⟩ :=
    award_fresh_store k env1 store username cid cred1 h0 hd1 hi1
  have hfind1 : findCred (award k env1 store username cid).store k username
      cid = some rec1 := by
    rw [hs1]
    exact findCred_append_match h0 hkey1
  obtain ⟨rec2, hs2, hkey2, hst2, hpk2⟩ :=
    award_existing_store k env2 (award k env1 store username cid).store
      username cid cred2 rec1 hfind1 hd2 hi2
  rcases hs2 with hs2 | hs2
  · refine ⟨rec1, ?_, hst1, ?_⟩
    · rw [hs2]
      exact hfind1
    · rw [hs2, hs1, countKey_append, countKey_eq_zero h0, hkey1]
      simp
  · have hpk12 : rec2.pk = freshPk store := by rw [hpk2, hpk1]
    have hsave : saveCred (store ++ [rec1]) rec2 = store ++ [rec2] :=
      saveCred_append_fresh
        (fun x hx => by rw [hpk12]; exact pk_ne_freshPk hx)
        (by rw [hpk1, hpk12])
    have hstore2 : (award k env2 (award k env1 store username cid).store
        username cid).store = store ++ [rec2] := by
      rw [hs2, hs1, hsave]
    have hst : rec2.status = STATUS_AWARDED := by
      rcases hst2 with h | h
      · exact h
      · rw [h, hst1]
    refine ⟨rec2, ?_, hst, ?_⟩
    · rw [hstore2]
      exact findCred_append_match h0 hkey2
    · rw [hstore2, countKey_append, countKey_eq_zero h0, hkey2]
      simp

/-- Witness for C2: "alice" awarded badge 1 twice against the Credly issuer
from the empty store. -/
theorem award_twice_one_record_witness :
    ∃ rec : UserCred,
      findCred (award .credly wEnv (award .credly wEnv [] "alice" 1).store
        "alice" 1).store .credly "alice" 1 = some rec ∧
      rec.status = STATUS_AWARDED ∧
      countKey (award .credly wEnv (award .credly wEnv [] "alice" 1).store
        "alice" 1).store .credly "alice" 1 = 1 :=
  award_twice_one_record .credly wEnv wEnv [] "alice" 1 wDef wDef rfl
    (by decide) rfl (by decide) rfl

end Badges
